import Mathlib

/-!
Verification of the authentication / session / rate-limiting core of the
prompt-rewriter service.  The definitions below are a shallow embedding of
the TypeScript sources (`src/lib/auth.ts`, `src/lib/rate-limit.ts`,
`src/lib/validation.ts`, `src/app/api/auth/login/route.ts` and the
edge-runtime auth module).  Machine time (`Date.now()`) is passed in
explicitly as a `Nat` of epoch milliseconds; the module-global mutable maps
are threaded as explicit state; external collaborators (bcrypt comparison,
the entropy source for token generation, the file system) are parameters.
-/

/-! ## JavaScript string primitives

The sources use `String.prototype.trim`, `String.prototype.toLowerCase`
and `String.prototype.length`.  We model them on the underlying character
list (the inputs exercised by this system are ASCII). -/

/-- Whitespace characters removed by the JavaScript `trim` (ASCII part). -/
def jsWhitespace (c : Char) : Bool :=
  c = ' ' || c = '\t' || c = '\n' || c = '\r' || c.toNat = 11 || c.toNat = 12

/-- Model of `String.prototype.trim`. -/
def jsTrim (s : String) : String :=
  String.mk (((s.data.dropWhile jsWhitespace).reverse.dropWhile jsWhitespace).reverse)

/-- ASCII lower-casing of one character, as done by `toLowerCase`. -/
def jsLowerChar (c : Char) : Char :=
  if 'A' ≤ c ∧ c ≤ 'Z' then Char.ofNat (c.toNat + 32) else c

/-- Model of `String.prototype.toLowerCase` (ASCII). -/
def jsToLower (s : String) : String :=
  String.mk (s.data.map jsLowerChar)

/-! ## JSON values

`JSON.parse` produces JavaScript values; we model the producible values
(null, booleans, numbers, strings, arrays, objects).  The timestamps and
counters in this system are integral, so numbers are modelled as `Int`. -/

/-- A JavaScript value produced by `JSON.parse`. -/
inductive Json where
  | null : Json
  | bool : Bool → Json
  | num : Int → Json
  | str : String → Json
  | arr : List Json → Json
  | obj : List (String × Json) → Json

/-- JavaScript property lookup on an object literal: the last binding of a
duplicated key wins, as with `JSON.parse`. -/
def lookupLast (fields : List (String × Json)) (k : String) : Option Json :=
  match fields with
  | [] => none
  | (k0, v) :: rest =>
    match lookupLast rest k with
    | some v1 => some v1
    | none => if k0 = k then some v else none

/-- JavaScript truthiness of a parsed JSON value. -/
def truthy (j : Json) : Bool :=
  match j with
  | .null => false
  | .bool b => b
  | .num n => n ≠ 0
  | .str s => s ≠ ""
  | .arr _ => true
  | .obj _ => true

/-- Property access `v.k` where `v` is not `null`/`undefined`: objects are
looked up, other values yield `undefined` (modelled as `none`). -/
def getProp (j : Json) (k : String) : Option Json :=
  match j with
  | .obj fields => lookupLast fields k
  | _ => none

/-- Property access as an effect: accessing a property of `null` throws a
`TypeError`. -/
def getPropE (j : Json) (k : String) : Except Unit (Option Json) :=
  match j with
  | .null => .error ()
  | .obj fields => .ok (lookupLast fields k)
  | _ => .ok (getProp j k)

/-- Truthiness of a possibly-`undefined` property value. -/
def truthyOpt (j : Option Json) : Bool :=
  match j with
  | none => false
  | some v => truthy v

/-! ## UTF-8 bytes

`Buffer.from(str).toString('base64url')` and the inverse direction go
through UTF-8 bytes; we model byte sequences as `List Nat` (each < 256). -/

/-- UTF-8 encoding of one Unicode scalar value. -/
def utf8EncodeChar (c : Char) : List Nat :=
  let n := c.toNat
  if n < 0x80 then [n]
  else if n < 0x800 then [0xC0 + n / 64, 0x80 + n % 64]
  else if n < 0x10000 then [0xE0 + n / 4096, 0x80 + (n / 64) % 64, 0x80 + n % 64]
  else [0xF0 + n / 262144, 0x80 + (n / 4096) % 64, 0x80 + (n / 64) % 64, 0x80 + n % 64]

/-- UTF-8 encoding of a string. -/
def utf8Encode (s : String) : List Nat :=
  s.data.flatMap utf8EncodeChar

/-- The U+FFFD replacement character emitted for invalid byte sequences. -/
def replChar : Char := Char.ofNat 0xFFFD

/-- Whether a byte is a UTF-8 continuation byte. -/
def isCont (b : Nat) : Bool := 0x80 ≤ b && b < 0xC0

/-- UTF-8 decoding worker (as `Buffer.prototype.toString('utf-8')`: invalid
sequences become replacement characters, the decoder never fails).  The
fuel argument keeps the recursion structural; every step consumes at least
one byte, so `fuel = length` always suffices. -/
def utf8DecodeAux : Nat → List Nat → List Char
  | 0, _ => []
  | _, [] => []
  | fuel + 1, b :: rest =>
    if b < 0x80 then Char.ofNat b :: utf8DecodeAux fuel rest
    else if b < 0xC0 then replChar :: utf8DecodeAux fuel rest
    else if b < 0xE0 then
      match rest with
      | b2 :: rest2 =>
        if isCont b2 then
          let cp := (b - 0xC0) * 64 + (b2 - 0x80)
          (if cp < 0x80 then replChar else Char.ofNat cp) :: utf8DecodeAux fuel rest2
        else replChar :: utf8DecodeAux fuel rest
      | [] => [replChar]
    else if b < 0xF0 then
      match rest with
      | b2 :: b3 :: rest3 =>
        if isCont b2 && isCont b3 then
          let cp := (b - 0xE0) * 4096 + (b2 - 0x80) * 64 + (b3 - 0x80)
          (if cp < 0x800 ∨ (0xD800 ≤ cp ∧ cp ≤ 0xDFFF) then replChar else Char.ofNat cp) ::
            utf8DecodeAux fuel rest3
        else replChar :: utf8DecodeAux fuel rest
      | _ => [replChar]
    else if b < 0xF8 then
      match rest with
      | b2 :: b3 :: b4 :: rest4 =>
        if isCont b2 && isCont b3 && isCont b4 then
          let cp := (b - 0xF0) * 262144 + (b2 - 0x80) * 4096 + (b3 - 0x80) * 64 + (b4 - 0x80)
          (if cp < 0x10000 ∨ cp > 0x10FFFF then replChar else Char.ofNat cp) ::
            utf8DecodeAux fuel rest4
        else replChar :: utf8DecodeAux fuel rest
      | _ => [replChar]
    else replChar :: utf8DecodeAux fuel rest

/-- UTF-8 decoding to a string. -/
def utf8Decode (bs : List Nat) : String := String.mk (utf8DecodeAux bs.length bs)

/-! ## base64url

`Buffer.from(x, 'base64url')` / `buf.toString('base64url')`.  Node's
encoder emits the unpadded URL-safe alphabet; its decoder ignores
characters outside the alphabet and discards a trailing partial sextet. -/

/-- The base64url alphabet, by sextet value. -/
def b64Char (n : Nat) : Char :=
  if n < 26 then Char.ofNat (65 + n)
  else if n < 52 then Char.ofNat (97 + (n - 26))
  else if n < 62 then Char.ofNat (48 + (n - 52))
  else if n = 62 then '-'
  else '_'

/-- Sextet value of a base64url character, `none` for foreign characters. -/
def b64Val (c : Char) : Option Nat :=
  let n := c.toNat
  if 65 ≤ n ∧ n ≤ 90 then some (n - 65)
  else if 97 ≤ n ∧ n ≤ 122 then some (n - 97 + 26)
  else if 48 ≤ n ∧ n ≤ 57 then some (n - 48 + 52)
  else if c = '-' then some 62
  else if c = '_' then some 63
  else none

/-- base64url encoding of a byte list (unpadded, as Node emits). -/
def b64urlEncodeBytes : List Nat → List Char
  | b1 :: b2 :: b3 :: rest =>
    b64Char (b1 / 4) :: b64Char ((b1 % 4) * 16 + b2 / 16) ::
      b64Char ((b2 % 16) * 4 + b3 / 64) :: b64Char (b3 % 64) :: b64urlEncodeBytes rest
  | [b1, b2] =>
    [b64Char (b1 / 4), b64Char ((b1 % 4) * 16 + b2 / 16), b64Char ((b2 % 16) * 4)]
  | [b1] => [b64Char (b1 / 4), b64Char ((b1 % 4) * 16)]
  | [] => []

/-- base64url encoding of bytes to a string. -/
def b64urlEncode (bs : List Nat) : String := String.mk (b64urlEncodeBytes bs)

/-- Reassembling bytes from a list of sextet values. -/
def b64Regroup : List Nat → List Nat
  | a :: b :: c :: d :: rest =>
    (a * 4 + b / 16) :: ((b % 16) * 16 + c / 4) :: ((c % 4) * 64 + d) :: b64Regroup rest
  | [a, b, c] => [a * 4 + b / 16, (b % 16) * 16 + c / 4]
  | [a, b] => [a * 4 + b / 16]
  | _ => []

/-- base64url decoding of a string (total, as `Buffer.from(_, 'base64url')`:
foreign characters are skipped, a lone trailing sextet is dropped). -/
def b64urlDecode (s : String) : List Nat :=
  b64Regroup (s.data.filterMap b64Val)

/-! ## JSON text

`JSON.parse` and `JSON.stringify`.  The parser is a recursive-descent
parser over the character list, kept structurally recursive by a fuel
argument (a fuel of twice the input length always suffices).  JSON
numbers in this system (timestamps, counters) are integral, and that is
what the parser accepts. -/

/-- An opening curly brace character. -/
def lbrace : Char := Char.ofNat 123

/-- A closing curly brace character. -/
def rbrace : Char := Char.ofNat 125

/-- JSON insignificant whitespace removal. -/
def skipWs : List Char → List Char
  | [] => []
  | c :: rest => if c = ' ' ∨ c = '\t' ∨ c = '\n' ∨ c = '\r' then skipWs rest else c :: rest

/-- Value of one hexadecimal digit. -/
def hexVal (c : Char) : Option Nat :=
  let n := c.toNat
  if 48 ≤ n ∧ n ≤ 57 then some (n - 48)
  else if 97 ≤ n ∧ n ≤ 102 then some (n - 97 + 10)
  else if 65 ≤ n ∧ n ≤ 70 then some (n - 65 + 10)
  else none

/-- Parses the body of a JSON string literal (after the opening quote),
returning the decoded string and the rest of the input. -/
def parseStrAux : Nat → List Char → List Char → Option (String × List Char)
  | 0, _, _ => none
  | _, [], _ => none
  | fuel + 1, c :: rest, acc =>
    if c = '"' then some (String.mk acc.reverse, rest)
    else if c = '\\' then
      match rest with
      | [] => none
      | e :: rest2 =>
        if e = '"' ∨ e = '\\' ∨ e = '/' then parseStrAux fuel rest2 (e :: acc)
        else if e = 'n' then parseStrAux fuel rest2 ('\n' :: acc)
        else if e = 't' then parseStrAux fuel rest2 ('\t' :: acc)
        else if e = 'r' then parseStrAux fuel rest2 ('\r' :: acc)
        else if e = 'b' then parseStrAux fuel rest2 (Char.ofNat 8 :: acc)
        else if e = 'f' then parseStrAux fuel rest2 (Char.ofNat 12 :: acc)
        else if e = 'u' then
          match rest2 with
          | h1 :: h2 :: h3 :: h4 :: rest3 =>
            match hexVal h1, hexVal h2, hexVal h3, hexVal h4 with
            | some a, some b, some c2, some d =>
              parseStrAux fuel rest3 (Char.ofNat (((a * 16 + b) * 16 + c2) * 16 + d) :: acc)
            | _, _, _, _ => none
          | _ => none
        else none
    else if c.toNat < 32 then none
    else parseStrAux fuel rest (c :: acc)

/-- Numeric value of a list of decimal digit characters. -/
def natOfDigits (ds : List Char) : Nat :=
  ds.foldl (fun a c => a * 10 + (c.toNat - 48)) 0

/-- Parses a JSON integer literal (optional minus sign, no leading zeros). -/
def parseNum (cs : List Char) : Option (Json × List Char) :=
  match cs with
  | '-' :: rest =>
    let ds := rest.takeWhile Char.isDigit
    if ds = [] then none
    else if ds.length > 1 ∧ ds.headD '0' = '0' then none
    else some (.num (-(Int.ofNat (natOfDigits ds))), rest.drop ds.length)
  | _ =>
    let ds := cs.takeWhile Char.isDigit
    if ds = [] then none
    else if ds.length > 1 ∧ ds.headD '0' = '0' then none
    else some (.num (Int.ofNat (natOfDigits ds)), cs.drop ds.length)

/-- Parser modes: a single value, the tail of an array, or the tail of an
object. -/
inductive PMode where
  | val : PMode
  | items : List Json → PMode
  | fields : List (String × Json) → PMode

/-- The recursive-descent JSON parser. -/
def parseStep : Nat → PMode → List Char → Option (Json × List Char)
  | 0, _, _ => none
  | fuel + 1, .val, cs =>
    match skipWs cs with
    | [] => none
    | c :: rest =>
      if c = 'n' then
        match rest with
        | 'u' :: 'l' :: 'l' :: r => some (.null, r)
        | _ => none
      else if c = 't' then
        match rest with
        | 'r' :: 'u' :: 'e' :: r => some (.bool true, r)
        | _ => none
      else if c = 'f' then
        match rest with
        | 'a' :: 'l' :: 's' :: 'e' :: r => some (.bool false, r)
        | _ => none
      else if c = '"' then
        match parseStrAux (rest.length + 1) rest [] with
        | some (s, r) => some (.str s, r)
        | none => none
      else if c = '-' ∨ c.isDigit then parseNum (c :: rest)
      else if c = '[' then
        match skipWs rest with
        | c2 :: r2 => if c2 = ']' then some (.arr [], r2) else parseStep fuel (.items []) rest
        | [] => none
      else if c = lbrace then
        match skipWs rest with
        | c2 :: r2 => if c2 = rbrace then some (.obj [], r2) else parseStep fuel (.fields []) rest
        | [] => none
      else none
  | fuel + 1, .items acc, cs =>
    match parseStep fuel .val cs with
    | none => none
    | some (v, rest) =>
      match skipWs rest with
      | c :: r =>
        if c = ',' then parseStep fuel (.items (acc ++ [v])) r
        else if c = ']' then some (.arr (acc ++ [v]), r)
        else none
      | [] => none
  | fuel + 1, .fields acc, cs =>
    match skipWs cs with
    | c :: rest =>
      if c = '"' then
        match parseStrAux (rest.length + 1) rest [] with
        | none => none
        | some (k, r1) =>
          match skipWs r1 with
          | c2 :: r2 =>
            if c2 = ':' then
              match parseStep fuel .val r2 with
              | none => none
              | some (v, r3) =>
                match skipWs r3 with
                | c3 :: r4 =>
                  if c3 = ',' then parseStep fuel (.fields (acc ++ [(k, v)])) r4
                  else if c3 = rbrace then some (.obj (acc ++ [(k, v)]), r4)
                  else none
                | [] => none
            else none
          | [] => none
      else none
    | [] => none

/-- Model of `JSON.parse`: `none` when the parse throws a `SyntaxError`. -/
def jsonParse (s : String) : Option Json :=
  match parseStep (2 * s.data.length + 16) .val s.data with
  | some (v, rest) => if skipWs rest = [] then some v else none
  | none => none

/-- Lower-case hexadecimal digit. -/
def hexDigit (n : Nat) : Char :=
  if n < 10 then Char.ofNat (48 + n) else Char.ofNat (97 + n - 10)

/-- Escaping of one character inside a `JSON.stringify` string literal. -/
def jsonEscapeChar (c : Char) : List Char :=
  if c = '"' then ['\\', '"']
  else if c = '\\' then ['\\', '\\']
  else if c = '\n' then ['\\', 'n']
  else if c = '\r' then ['\\', 'r']
  else if c = '\t' then ['\\', 't']
  else if c.toNat = 8 then ['\\', 'b']
  else if c.toNat = 12 then ['\\', 'f']
  else if c.toNat < 32 then ['\\', 'u', '0', '0', hexDigit (c.toNat / 16), hexDigit (c.toNat % 16)]
  else [c]

/-- A `JSON.stringify` string literal. -/
def jsonQuote (s : String) : List Char :=
  '"' :: (s.data.flatMap jsonEscapeChar ++ ['"'])

/-! ## User store (`loadUsers`, `findUser` in `src/lib/auth.ts`)

The durable users file is passed in as a `FsFile` value: absent, a read
failure, or its text content.  `loadUsers` returns the kept raw entries of
the `users` array, as the source returns the objects it filtered. -/

/-- The state of the durable users file as seen by `fs`. -/
inductive FsFile where
  | absent : FsFile
  | readErr : FsFile
  | content : String → FsFile

/-- The `users.filter(...)` pass of `loadUsers`: an entry is kept when both
`user.username` and `user.passwordHash` are truthy; accessing a property
of a `null` entry throws. -/
def filterValidUsersE : List Json → Except Unit (List Json)
  | [] => .ok []
  | u :: rest =>
    match getPropE u "username" with
    | .error e => .error e
    | .ok a =>
      if truthyOpt a = false then filterValidUsersE rest
      else
        match getPropE u "passwordHash" with
        | .error e => .error e
        | .ok b =>
          if truthyOpt b = false then filterValidUsersE rest
          else
            match filterValidUsersE rest with
            | .error e => .error e
            | .ok tail => .ok (u :: tail)

/-- The body of `loadUsers` up to (but not including) its `try/catch`:
`.error` is a thrown exception reaching the handler. -/
def loadUsersE (file : FsFile) : Except Unit (List Json) :=
  match file with
  | .absent => .ok []
  | .readErr => .error ()
  | .content s =>
    if jsTrim s = "" then .ok []
    else
      match jsonParse s with
      | none => .error ()
      | some data =>
        if truthy data = false then .ok []
        else
          match getProp data "users" with
          | some (Json.arr es) => filterValidUsersE es
          | _ => .ok []

/-- `loadUsers`: the catch handler absorbs every thrown error into `[]`. -/
def loadUsers (file : FsFile) : List Json :=
  match loadUsersE file with
  | .ok l => l
  | .error _ => []

/-- A well-formed user record (the `User` interface of `src/lib/auth.ts`;
the optional audit fields play no role in the verified operations). -/
structure User where
  username : String
  passwordHash : String
  displayName : Option String := none

/-- Linear scan of `users.find(...)` with the normalized target name. -/
def findUserAux (norm : String) : List User → Option User
  | [] => none
  | u :: rest => if jsTrim (jsToLower u.username) = norm then some u else findUserAux norm rest

/-- `findUser`: case-insensitive, trimmed, first-match username lookup.
The list parameter stands for the result of the fresh `loadUsers()` read. -/
def findUser (users : List User) (username : String) : Option User :=
  findUserAux (jsTrim (jsToLower username)) users

/-! ## Login attempt tracking (`src/lib/auth.ts`)

The module-global `loginAttempts` map is threaded explicitly.  JavaScript
`Map` iteration/update semantics are modelled on an association list:
`set` of an existing key updates in place, otherwise appends. -/

/-- One entry of the `loginAttempts` map. -/
structure Attempts where
  count : Nat
  lastAttempt : Nat
  lockedUntil : Option Nat

/-- The `loginAttempts` map (username, lower-cased, to attempt state). -/
abbrev AttemptMap := List (String × Attempts)

/-- `Map.prototype.get`. -/
def mapGet {α : Type} : List (String × α) → String → Option α
  | [], _ => none
  | (k0, v) :: rest, k => if k0 = k then some v else mapGet rest k

/-- `Map.prototype.set`: updates an existing key in place, else appends. -/
def mapSet {α : Type} : List (String × α) → String → α → List (String × α)
  | [], k, v => [(k, v)]
  | (k0, v0) :: rest, k, v => if k0 = k then (k0, v) :: rest else (k0, v0) :: mapSet rest k v

/-- `Map.prototype.delete`. -/
def mapDel {α : Type} : List (String × α) → String → List (String × α)
  | [], _ => []
  | (k0, v0) :: rest, k => if k0 = k then mapDel rest k else (k0, v0) :: mapDel rest k

/-- `RATE_LIMIT_CONFIG.maxAttempts`. -/
def maxAttempts : Nat := 5

/-- `RATE_LIMIT_CONFIG.lockoutDuration` (15 minutes in ms). -/
def lockoutDuration : Nat := 15 * 60 * 1000

/-- `RATE_LIMIT_CONFIG.attemptWindow` (5 minutes in ms). -/
def attemptWindow : Nat := 5 * 60 * 1000

/-- `isLockedOut`: reports whether the username is locked out and purges an
expired lockout entry (self-healing check).  The `lu ≠ 0` conjuncts model
the JavaScript truthiness test on `attempts.lockedUntil`. -/
def isLockedOut (now : Nat) (m : AttemptMap) (username : String) : Bool × AttemptMap :=
  match mapGet m (jsToLower username) with
  | none => (false, m)
  | some a =>
    match a.lockedUntil with
    | some lu =>
      if lu ≠ 0 ∧ now < lu then (true, m)
      else if lu ≠ 0 ∧ lu ≤ now then (false, mapDel m (jsToLower username))
      else (false, m)
    | none => (false, m)

/-- The result record of `recordFailedAttempt`. -/
structure LockInfo where
  lockedOut : Bool
  remainingSeconds : Option Nat

/-- `recordFailedAttempt`: first failure creates state with count 1; a
failure outside the attempt window resets the window; otherwise the count
is incremented and reaching `maxAttempts` sets the lockout deadline. -/
def recordFailedAttempt (now : Nat) (m : AttemptMap) (username : String) :
    LockInfo × AttemptMap :=
  let k := jsToLower username
  match mapGet m k with
  | none => (⟨false, none⟩, mapSet m k ⟨1, now, none⟩)
  | some a =>
    if attemptWindow < now - a.lastAttempt then
      (⟨false, none⟩, mapSet m k ⟨1, now, none⟩)
    else
      let c := a.count + 1
      if maxAttempts ≤ c then
        (⟨true, some ((lockoutDuration + 999) / 1000)⟩,
          mapSet m k ⟨c, now, some (now + lockoutDuration)⟩)
      else
        (⟨false, none⟩, mapSet m k ⟨c, now, a.lockedUntil⟩)

/-- `clearFailedAttempts` (called on successful login). -/
def clearFailedAttempts (m : AttemptMap) (username : String) : AttemptMap :=
  mapDel m (jsToLower username)

/-- `verifyCredentials`.  The bcrypt comparison is an external collaborator
passed as `compare`; a `.error` result models a rejected promise, which the
function's own catch handler turns into `null` (the map mutations already
performed persist). -/
def verifyCredentials (now : Nat) (compare : String → String → Except Unit Bool)
    (users : List User) (m : AttemptMap) (username password : String) :
    Option User × AttemptMap :=
  if jsTrim username = "" then (none, m)
  else if password = "" then (none, m)
  else
    let lockCheck := isLockedOut now m username
    if lockCheck.1 then (none, lockCheck.2)
    else
      match findUser users username with
      | none => (none, (recordFailedAttempt now lockCheck.2 username).2)
      | some user =>
        match compare password user.passwordHash with
        | .error _ => (none, lockCheck.2)
        | .ok false => (none, (recordFailedAttempt now lockCheck.2 username).2)
        | .ok true => (some user, clearFailedAttempts lockCheck.2 username)

/-- The lockout-map evolution of a sequence of `verifyCredentials` calls
(time, username, password), in call order. -/
def verifyRun (compare : String → String → Except Unit Bool) (users : List User)
    (calls : List (Nat × String × String)) (m : AttemptMap) : AttemptMap :=
  calls.foldl (fun acc c => (verifyCredentials c.1 compare users acc c.2.1 c.2.2).2) m

/-! ## Session codec (`src/lib/auth.ts` and the edge-runtime variant) -/

/-- `SESSION_DURATION_MS` (24 hours in ms). -/
def SESSION_DURATION_MS : Nat := 24 * 60 * 60 * 1000

/-- Decimal digits of a natural number (worker). -/
def natReprAux : Nat → Nat → List Char
  | 0, _ => []
  | fuel + 1, n =>
    if n < 10 then [Char.ofNat (48 + n)]
    else natReprAux fuel (n / 10) ++ [Char.ofNat (48 + n % 10)]

/-- Decimal digits of a natural number. -/
def natRepr (n : Nat) : List Char := natReprAux (n + 1) n

/-- `JSON.stringify` of the `SessionData` object literal built by
`createSession` (key insertion order; an `undefined` `displayName` is
omitted by `JSON.stringify`). -/
def sessionJsonChars (username : String) (displayName : Option String) (token : String)
    (createdAt expiresAt : Nat) : List Char :=
  [lbrace] ++ jsonQuote "username" ++ [':'] ++ jsonQuote username ++
    (match displayName with
     | some d => [','] ++ jsonQuote "displayName" ++ [':'] ++ jsonQuote d
     | none => []) ++
    [','] ++ jsonQuote "token" ++ [':'] ++ jsonQuote token ++
    [','] ++ jsonQuote "createdAt" ++ [':'] ++ natRepr createdAt ++
    [','] ++ jsonQuote "expiresAt" ++ [':'] ++ natRepr expiresAt ++
    [rbrace]

/-- The encoded cookie value produced by `createSession` for a fresh token
at time `now`: base64url of the serialized session structure. -/
def encodeSessionCookie (user : User) (token : String) (now : Nat) : String :=
  b64urlEncode (utf8Encode (String.mk
    (sessionJsonChars user.username user.displayName token now (now + SESSION_DURATION_MS))))

/-- `createSession` with the entropy source as a parameter: the only
fallible step is `generateSessionToken` (its failure is rethrown); the
result is the fresh token and the cookie value set on the response. -/
def createSessionE (tokenGen : Except Unit String) (now : Nat) (user : User) :
    Except Unit (String × String) :=
  match tokenGen with
  | .error _ => .error ()
  | .ok tok => .ok (tok, encodeSessionCookie user tok now)

/-- Whether a parsed value is JavaScript `null` (on which property access
throws inside the decoder's `try`). -/
def isNullJ (j : Json) : Bool :=
  match j with
  | .null => true
  | _ => false

/-- Whether a property value is a string (`typeof x === 'string'`). -/
def isStrJ (j : Option Json) : Bool :=
  match j with
  | some (.str _) => true
  | _ => false

/-- Whether a property value is a number (`typeof x === 'number'`). -/
def isNumJ (j : Option Json) : Bool :=
  match j with
  | some (.num _) => true
  | _ => false

/-- The string held by a property value (meaningful after `isStrJ`). -/
def strOf (j : Option Json) : String :=
  match j with
  | some (.str s) => s
  | _ => ""

/-- The number held by a property value (meaningful after `isNumJ`). -/
def numOf (j : Option Json) : Int :=
  match j with
  | some (.num n) => n
  | _ => 0

/-- `decodeSession` of the edge-runtime module: base64url-decode, parse,
require truthy `username`/`token`/`expiresAt`, require `username` to be a
string and `expiresAt` a number, and reject expired sessions.  Every
failure (including a parse exception) is `none`. -/
def decodeSessionEdge (now : Nat) (cookieValue : String) : Option Json :=
  match jsonParse (utf8Decode (b64urlDecode cookieValue)) with
  | none => none
  | some s =>
    if isNullJ s then none
    else if !truthyOpt (getProp s "username") || !truthyOpt (getProp s "token") ||
        !truthyOpt (getProp s "expiresAt") then none
    else if !isStrJ (getProp s "username") || !isNumJ (getProp s "expiresAt") then none
    else if (now : Int) > numOf (getProp s "expiresAt") then none
    else some s

/-- `decodeSession` of `src/lib/auth.ts`: identical pipeline plus the final
revocation check that the session's username still resolves in the user
store (`users` stands for the fresh `loadUsers()` read). -/
def decodeSession (now : Nat) (users : List User) (cookieValue : String) : Option Json :=
  match jsonParse (utf8Decode (b64urlDecode cookieValue)) with
  | none => none
  | some s =>
    if isNullJ s then none
    else if !truthyOpt (getProp s "username") || !truthyOpt (getProp s "token") ||
        !truthyOpt (getProp s "expiresAt") then none
    else if !isStrJ (getProp s "username") || !isNumJ (getProp s "expiresAt") then none
    else if (now : Int) > numOf (getProp s "expiresAt") then none
    else if (findUser users (strOf (getProp s "username"))).isNone then none
    else some s

/-- `destroySession` with the cookie-store collaborators total: the decoded
session is only used for audit logging, and the cookie deletion is a
client instruction.  The rethrow branch of its catch handler is reachable
only through a failure of the external cookie framework, so with total
collaborators the operation always returns `.ok`. -/
def destroySession (now : Nat) (users : List User) (cookie : Option String) :
    Except Unit (Option Json) :=
  match cookie with
  | none => .ok none
  | some v => .ok (decodeSession now users v)

/-! ## Rate limiter (`src/lib/rate-limit.ts`) -/

/-- `WINDOW_MS` (1 minute). -/
def WINDOW_MS : Nat := 60000

/-- `MAX_REQUESTS` per window per key. -/
def MAX_REQUESTS : Nat := 10

/-- `MAX_IPS_IN_MEMORY`. -/
def MAX_IPS_IN_MEMORY : Nat := 10000

/-- `CLEANUP_BATCH_SIZE`. -/
def CLEANUP_BATCH_SIZE : Nat := 1000

/-- The `requests` map: client key to its recorded request timestamps. -/
abbrev ReqMap := List (String × List Nat)

/-- The aggressive pass of `cleanupOldEntries`: fully-expired keys are
deleted, live keys are compacted to their recent timestamps, and the pass
stops after `CLEANUP_BATCH_SIZE` deletions. -/
def cleanupAux (now : Nat) : Nat → ReqMap → ReqMap
  | _, [] => []
  | cleaned, (ip, ts) :: rest =>
    let recent := ts.filter (fun t => now - t < WINDOW_MS)
    if recent.isEmpty then
      if CLEANUP_BATCH_SIZE ≤ cleaned + 1 then rest
      else cleanupAux now (cleaned + 1) rest
    else
      if CLEANUP_BATCH_SIZE ≤ cleaned then (ip, recent) :: rest
      else (ip, recent) :: cleanupAux now cleaned rest

/-- `cleanupOldEntries`: only acts when the key count exceeds the ceiling. -/
def cleanupOldEntries (now : Nat) (st : ReqMap) : ReqMap :=
  if MAX_IPS_IN_MEMORY < st.length then cleanupAux now 0 st else st

/-- `isRateLimited`.  `cleanupTick` is the sampled `Math.random() < 0.1`
outcome that decides whether the opportunistic cleanup runs. -/
def isRateLimited (now : Nat) (cleanupTick : Bool) (st : ReqMap) (ip : String) :
    Bool × ReqMap :=
  let timestamps := (mapGet st ip).getD []
  let recent := timestamps.filter (fun t => now - t < WINDOW_MS)
  if MAX_REQUESTS ≤ recent.length then (true, st)
  else
    let st1 := mapSet st ip (recent ++ [now])
    (false, if cleanupTick then cleanupOldEntries now st1 else st1)

/-- A sequence of `isRateLimited` calls for one key: the list of returned
booleans and the final map. -/
def rateRun (ip : String) (calls : List (Nat × Bool)) (st : ReqMap) :
    List Bool × ReqMap :=
  match calls with
  | [] => ([], st)
  | (t, tick) :: rest =>
    let r := isRateLimited t tick st ip
    let rr := rateRun ip rest r.2
    (r.1 :: rr.1, rr.2)

/-! ## Input validation (`src/lib/validation.ts`) and the login route -/

/-- Control characters stripped by `sanitizeInput` (all C0 controls except
tab and newline, plus DEL). -/
def isStrippedControl (c : Char) : Bool :=
  c.toNat ≤ 8 ∨ c.toNat = 11 ∨ c.toNat = 12 ∨ (14 ≤ c.toNat ∧ c.toNat ≤ 31) ∨ c.toNat = 127

/-- The `\r\n → \n` replacement pass. -/
def crlfToLf : List Char → List Char
  | [] => []
  | '\r' :: '\n' :: rest => '\n' :: crlfToLf rest
  | c :: rest => c :: crlfToLf rest

/-- The `\r → \n` replacement pass. -/
def crToLf (cs : List Char) : List Char :=
  cs.map (fun c => if c = '\r' then '\n' else c)

/-- The `[ \t]+ → " "` replacement pass (`inRun` tracks an open run). -/
def collapseSpaceRun : Bool → List Char → List Char
  | _, [] => []
  | inRun, c :: rest =>
    if c = ' ' ∨ c = '\t' then
      if inRun then collapseSpaceRun true rest else ' ' :: collapseSpaceRun true rest
    else c :: collapseSpaceRun false rest

/-- The `\n{4,} → "\n\n\n"` replacement pass (`seen` counts the newlines of
the current run already emitted). -/
def capNewlines : Nat → List Char → List Char
  | _, [] => []
  | seen, c :: rest =>
    if c = '\n' then
      if 3 ≤ seen then capNewlines (seen + 1) rest
      else '\n' :: capNewlines (seen + 1) rest
    else c :: capNewlines 0 rest

/-- `sanitizeInput`: strip control characters, normalize line endings,
collapse space/tab runs, cap newline runs at three, trim. -/
def sanitizeInput (input : String) : String :=
  jsTrim (String.mk (capNewlines 0 (collapseSpaceRun false (crToLf (crlfToLf
    (input.data.filter (fun c => !(isStrippedControl c))))))))

/-- `isValidUtf8`: encodes and strictly re-decodes the string.  JavaScript
strings can hold lone surrogates, which fail this check; Lean strings are
always well-formed Unicode scalar sequences, so in this embedding the
round-trip always succeeds. -/
def isValidUtf8 (_s : String) : Bool := true

/-- The JSON body sent back by the login route, reduced to the observable
fields the claims speak about. -/
structure ApiResp where
  status : Nat
  errorMsg : Option String
  success : Bool

/-- The 400 response of the route's catch-all handler. -/
def invalidRequestResp : ApiResp := ⟨400, some "Invalid request", false⟩

/-- `POST /api/auth/login`.  `body` is the result of `req.json()` (`.error`
when that throws); reading the two fields off a `null` body throws and is
absorbed by the route's catch-all into the generic 400. -/
def loginRoute (now : Nat) (compare : String → String → Except Unit Bool)
    (users : List User) (tokenGen : Except Unit String) (m : AttemptMap)
    (body : Except Unit Json) : ApiResp × AttemptMap :=
  match body with
  | .error _ => (invalidRequestResp, m)
  | .ok b =>
    match getPropE b "username", getPropE b "password" with
    | .error _, _ => (invalidRequestResp, m)
    | _, .error _ => (invalidRequestResp, m)
    | .ok uf, .ok pf =>
      match uf with
      | some (Json.str u) =>
        if u = "" ∨ jsTrim u = "" then (⟨400, some "Username is required", false⟩, m)
        else
          match pf with
          | some (Json.str p) =>
            if p = "" then (⟨400, some "Password is required", false⟩, m)
            else if isValidUtf8 u = false ∨ isValidUtf8 p = false then
              (⟨400, some "Invalid character encoding", false⟩, m)
            else
              let u1 := sanitizeInput u
              if u1.length < 3 ∨ 100 < u1.length then
                (⟨401, some "Invalid credentials", false⟩, m)
              else if p.length < 8 ∨ 128 < p.length then
                (⟨401, some "Invalid credentials", false⟩, m)
              else
                let vr := verifyCredentials now compare users m u1 p
                match vr.1 with
                | none => (⟨401, some "Invalid credentials", false⟩, vr.2)
                | some user =>
                  match createSessionE tokenGen now user with
                  | .ok _ => (⟨200, none, true⟩, vr.2)
                  | .error _ => (⟨500, some "Failed to create session", false⟩, vr.2)
          | _ => (⟨400, some "Password is required", false⟩, m)
      | _ => (⟨400, some "Username is required", false⟩, m)

/-! ## Concrete instances used by the claims -/

/-- Lifts a non-throwing comparison collaborator into the effectful
signature of `verifyCredentials`. -/
def okCompare (cmp : String → String → Bool) : String → String → Except Unit Bool :=
  fun a b => .ok (cmp a b)

/-- Model of the external bcrypt collaborator's hash: an injective digest
tagged so that distinct passwords have distinct digests. -/
def modelBcryptHash (password : String) : String :=
  "bcrypt...." ++ password

/-- Model of the external bcrypt collaborator's comparison: true exactly
when the digest belongs to the candidate password. -/
def modelBcryptCompare (password hash : String) : Bool :=
  hash == modelBcryptHash password

/-- Whether two strings have equal length and differ in exactly one
character position (one tampered byte of an ASCII cookie value). -/
def oneCharDiff (s1 s2 : String) : Bool :=
  (s1.data.length == s2.data.length) &&
    (((s1.data.zip s2.data).filter (fun p => !(p.1 == p.2))).length == 1)

/-- A stored user for the concrete session scenarios. -/
def demoUser : User := { username := "alice", passwordHash := modelBcryptHash "pw12345678" }

/-- A cookie produced by `createSession` for `demoUser` at time 0. -/
def demoCookie : String := encodeSessionCookie demoUser "tokA" 0

/-- The session structure `demoCookie` decodes to. -/
def demoSessionJson : Json :=
  .obj [("username", .str "alice"), ("token", .str "tokA"),
        ("createdAt", .num 0), ("expiresAt", .num 86400000)]

/-- `demoCookie` with character 43 changed from `B` to `C`: a one-byte
tampering that lands inside the token's base64url region. -/
def demoCookieTampered : String :=
  String.mk (demoCookie.data.take 43 ++ ['C'] ++ demoCookie.data.drop 44)

/-- The lockout-map evolution of a sequence of `recordFailedAttempt` calls
at the given times, in call order. -/
def recordSeq (username : String) (ts : List Nat) (m : AttemptMap) : AttemptMap :=
  ts.foldl (fun acc t => (recordFailedAttempt t acc username).2) m

/-- A login request body with the two credential fields. -/
def loginBody (u p : Json) : Json :=
  .obj [("username", u), ("password", p)]

/-- The time-independent structural validation both session decoders apply
to a parsed cookie payload. -/
def sessionStructOk (s : Json) : Bool :=
  !isNullJ s && truthyOpt (getProp s "username") && truthyOpt (getProp s "token") &&
    truthyOpt (getProp s "expiresAt") && isStrJ (getProp s "username") &&
    isNumJ (getProp s "expiresAt")


/-- A stored user for the concrete lockout scenario. -/
def c1DemoUser : User := { username := "bob", passwordHash := modelBcryptHash "goodpass1" }

/-- The `users.filter(...)` predicate of `loadUsers` on a non-null entry:
both credential fields are truthy. -/
def validUserEntry (e : Json) : Bool :=
  truthyOpt (getProp e "username") && truthyOpt (getProp e "passwordHash")

/-- Whether an effectful computation completed without an uncaught throw. -/
def exOk {α : Type} (e : Except Unit α) : Bool :=
  match e with
  | .ok _ => true
  | .error _ => false

/-- A concrete users file whose second entry lacks `passwordHash`. -/
def c8DemoFile : String :=
  "\x7b\"users\":[\x7b\"username\":\"alice\",\"passwordHash\":\"h\"\x7d,\x7b\"username\":\"bob\"\x7d]\x7d"

/-- The parsed entries of `c8DemoFile`. -/
def c8DemoEntries : List Json :=
  [Json.obj [("username", .str "alice"), ("passwordHash", .str "h")],
   Json.obj [("username", .str "bob")]]

/-! # Theorems -/

/-- Characterization of a successful edge-variant decode. -/
theorem edge_some_iff (now : Nat) (c : String) (s : Json) :
    decodeSessionEdge now c = some s ↔
      jsonParse (utf8Decode (b64urlDecode c)) = some s ∧ sessionStructOk s = true ∧
        (now : Int) ≤ numOf (getProp s "expiresAt") := by
  unfold decodeSessionEdge
  cases hp : jsonParse (utf8Decode (b64urlDecode c)) with
  | none => simp
  | some v =>
    simp only []
    constructor
    · intro h
      split_ifs at h with h1 h2 h3 h4
      cases h
      refine ⟨rfl, ?_, by omega⟩
      unfold sessionStructOk
      simp_all
    · rintro ⟨hv, hok, hle⟩
      cases hv
      unfold sessionStructOk at hok
      simp only [Bool.and_eq_true, Bool.not_eq_true'] at hok
      obtain ⟨⟨⟨⟨⟨hn, hu⟩, ht⟩, he⟩, hs⟩, hm⟩ := hok
      rw [if_neg (by simp [hn]), if_neg (by simp [hu, ht, he]), if_neg (by simp [hs, hm]),
        if_neg (by omega)]

/-- Characterization of a successful full-variant decode. -/
theorem full_some_iff (now : Nat) (users : List User) (c : String) (s : Json) :
    decodeSession now users c = some s ↔
      jsonParse (utf8Decode (b64urlDecode c)) = some s ∧ sessionStructOk s = true ∧
        (now : Int) ≤ numOf (getProp s "expiresAt") ∧
        (findUser users (strOf (getProp s "username"))).isSome = true := by
  unfold decodeSession
  cases hp : jsonParse (utf8Decode (b64urlDecode c)) with
  | none => simp
  | some v =>
    simp only []
    constructor
    · intro h
      split_ifs at h with h1 h2 h3 h4 h5
      cases h
      refine ⟨rfl, ?_, by omega, ?_⟩
      · unfold sessionStructOk
        simp_all
      · cases hfu : findUser users (strOf (getProp s "username")) with
        | none => exact absurd (by simp [hfu]) h5
        | some u => simp [hfu]
    · rintro ⟨hv, hok, hle, hfind⟩
      cases hv
      unfold sessionStructOk at hok
      simp only [Bool.and_eq_true, Bool.not_eq_true'] at hok
      obtain ⟨⟨⟨⟨⟨hn, hu⟩, ht⟩, he⟩, hs⟩, hm⟩ := hok
      obtain ⟨u, hu2⟩ := Option.isSome_iff_exists.mp hfind
      rw [if_neg (by simp [hn]), if_neg (by simp [hu, ht, he]), if_neg (by simp [hs, hm]),
        if_neg (by omega), if_neg (by simp [hu2])]

/-- Full-variant success implies edge-variant success on the same cookie. -/
theorem decode_full_imp_edge (now : Nat) (users : List User) (c : String) (s : Json)
    (h : decodeSession now users c = some s) : decodeSessionEdge now c = some s := by
  rcases (full_some_iff now users c s).mp h with ⟨hp, hok, hle, _⟩
  exact (edge_some_iff now c s).mpr ⟨hp, hok, hle⟩

/-- Claim C7: for every cookie value and evaluation time, the restricted
(edge) session decode equals the full decode minus only the user-store
revocation check: a session returned by the full variant is returned
unchanged by the restricted variant, and a cookie rejected by the
restricted variant is also rejected by the full variant. -/
theorem c7_edge_refines_full (now : Nat) (users : List User) (c : String) :
    (∀ s, decodeSession now users c = some s → decodeSessionEdge now c = some s) ∧
    (decodeSessionEdge now c = none → decodeSession now users c = none) := by
  constructor
  · exact fun s h => decode_full_imp_edge now users c s h
  · intro h
    cases hf : decodeSession now users c with
    | none => rfl
    | some s =>
      have h2 := decode_full_imp_edge now users c s hf
      rw [h] at h2
      cases h2

/-- Witness for C7: instantiation on a concrete valid cookie and a concrete
garbage cookie. -/
theorem c7_edge_refines_full_witness :
    decodeSessionEdge 7 demoCookie = some demoSessionJson ∧
    decodeSession 7 [demoUser] "%%%" = none := by
  constructor
  · exact (c7_edge_refines_full 7 [demoUser] demoCookie).1 demoSessionJson (by rfl)
  · exact (c7_edge_refines_full 7 [demoUser] "%%%").2 (by rfl)

/-- Claim C2 (amended): a session cookie that decodes at its creation time
T and carries expiry T + D decodes successfully (in both variants) at
every queried time up to and including T + D, and fails at every queried
time strictly greater than T + D.  (The source rejects only when
`now > expiresAt`, so the boundary instant T + D itself still decodes;
the claim's `≥ T + D` failure bound is off by this one instant.) -/
theorem c2_session_expiry_window (users : List User) (c : String) (s : Json) (T D : Nat)
    (hdec : decodeSession T users c = some s)
    (hexp : numOf (getProp s "expiresAt") = ((T + D : Nat) : Int)) :
    (∀ now, now ≤ T + D → decodeSession now users c = some s) ∧
    (∀ now, T + D < now → decodeSession now users c = none) ∧
    (∀ now, now ≤ T + D → decodeSessionEdge now c = some s) ∧
    (∀ now, T + D < now → decodeSessionEdge now c = none) := by
  rcases (full_some_iff T users c s).mp hdec with ⟨hp, hok, hle, hfind⟩
  refine ⟨?_, ?_, ?_, ?_⟩
  · intro now hnow
    refine (full_some_iff now users c s).mpr ⟨hp, hok, ?_, hfind⟩
    rw [hexp]
    exact_mod_cast hnow
  · intro now hnow
    cases hf : decodeSession now users c with
    | none => rfl
    | some s1 =>
      rcases (full_some_iff now users c s1).mp hf with ⟨hp1, _, hle1, _⟩
      rw [hp] at hp1
      cases hp1
      rw [hexp] at hle1
      have : (now : Int) ≤ ((T + D : Nat) : Int) := hle1
      omega
  · intro now hnow
    refine (edge_some_iff now c s).mpr ⟨hp, hok, ?_⟩
    rw [hexp]
    exact_mod_cast hnow
  · intro now hnow
    cases hf : decodeSessionEdge now c with
    | none => rfl
    | some s1 =>
      rcases (edge_some_iff now c s1).mp hf with ⟨hp1, _, hle1⟩
      rw [hp] at hp1
      cases hp1
      rw [hexp] at hle1
      have : (now : Int) ≤ ((T + D : Nat) : Int) := hle1
      omega

/-- Witness for C2: the concrete cookie issued at time 0 decodes at a
mid-lifetime instant. -/
theorem c2_session_expiry_window_witness :
    decodeSession 12345 [demoUser] demoCookie = some demoSessionJson := by
  exact (c2_session_expiry_window [demoUser] demoCookie demoSessionJson 0 SESSION_DURATION_MS
    (by rfl) (by rfl)).1 12345 (by norm_num [SESSION_DURATION_MS])

/-- Counterexample to C2 as stated: the cookie encoded at time 0 with the
24-hour session duration still decodes at exactly T + D, where the claim
requires failure for every time ≥ T + D. -/
theorem c2_expiry_boundary_cex :
    demoCookie = encodeSessionCookie demoUser "tokA" 0 ∧
    decodeSession (0 + SESSION_DURATION_MS) [demoUser] demoCookie = some demoSessionJson ∧
    decodeSessionEdge (0 + SESSION_DURATION_MS) demoCookie = some demoSessionJson :=
  ⟨rfl, rfl, rfl⟩

/-- Claim C3 (amended): decoding a tampered cookie never throws and never
partially trusts the structure — it returns `none` or a session value that
passed every structural check and is unexpired; a one-byte tampering does
not always produce `none`. -/
theorem c3_tamper_decode_defined (now : Nat) (c0 c1 : String) (s0 : Json)
    (hvalid : decodeSessionEdge now c0 = some s0)
    (htamper : oneCharDiff c0 c1 = true) :
    decodeSessionEdge now c1 = none ∨
      ∃ s1, decodeSessionEdge now c1 = some s1 ∧ sessionStructOk s1 = true ∧
        (now : Int) ≤ numOf (getProp s1 "expiresAt") := by
  cases hd : decodeSessionEdge now c1 with
  | none => exact Or.inl rfl
  | some s1 =>
    rcases (edge_some_iff now c1 s1).mp hd with ⟨_, hok, hle⟩
    exact Or.inr ⟨s1, rfl, hok, hle⟩

/-- Witness for C3 (amended): instantiation on the concrete tampered
cookie. -/
theorem c3_tamper_decode_defined_witness :
    decodeSessionEdge 5 demoCookieTampered = none ∨
      ∃ s1, decodeSessionEdge 5 demoCookieTampered = some s1 ∧ sessionStructOk s1 = true ∧
        (5 : Int) ≤ numOf (getProp s1 "expiresAt") :=
  c3_tamper_decode_defined 5 demoCookie demoCookieTampered demoSessionJson (by rfl) (by rfl)

/-- Counterexample to C3 as stated: tampering one byte (character 43) of a
validly encoded cookie yields a cookie the decoder still accepts — decode
returns a session, not null. -/
theorem c3_tamper_not_null_cex :
    decodeSessionEdge 5 demoCookie = some demoSessionJson ∧
    oneCharDiff demoCookie demoCookieTampered = true ∧
    (decodeSessionEdge 5 demoCookieTampered).isSome = true :=
  ⟨rfl, rfl, rfl⟩

theorem mapGet_mapSet_self {α : Type} (m : List (String × α)) (k : String) (v : α) :
    mapGet (mapSet m k v) k = some v := by
  induction m with
  | nil => simp [mapSet, mapGet]
  | cons hd tl ih =>
    by_cases h : hd.1 = k
    · simp [mapSet, mapGet, h]
    · cases hd
      simp_all [mapSet, mapGet, h]

theorem verify_wrong_password (now : Nat) (cmp : String → String → Except Unit Bool)
    (users : List User) (m m2 : AttemptMap) (uname pw : String) (u : User)
    (h1 : jsTrim uname ≠ "") (h2 : pw ≠ "")
    (hlock : isLockedOut now m uname = (false, m2))
    (hfind : findUser users uname = some u)
    (hcmp : cmp pw u.passwordHash = .ok false) :
    verifyCredentials now cmp users m uname pw =
      (none, (recordFailedAttempt now m2 uname).2) := by
  simp only [verifyCredentials, if_neg h1, if_neg h2, hlock, hfind, hcmp]
  simp

theorem verify_correct_password (now : Nat) (cmp : String → String → Except Unit Bool)
    (users : List User) (m m2 : AttemptMap) (uname pw : String) (u : User)
    (h1 : jsTrim uname ≠ "") (h2 : pw ≠ "")
    (hlock : isLockedOut now m uname = (false, m2))
    (hfind : findUser users uname = some u)
    (hcmp : cmp pw u.passwordHash = .ok true) :
    verifyCredentials now cmp users m uname pw = (some u, clearFailedAttempts m2 uname) := by
  simp only [verifyCredentials, if_neg h1, if_neg h2, hlock, hfind, hcmp]
  simp

theorem verify_while_locked (now : Nat) (cmp : String → String → Except Unit Bool)
    (users : List User) (m m2 : AttemptMap) (uname pw : String)
    (h1 : jsTrim uname ≠ "") (h2 : pw ≠ "")
    (hlock : isLockedOut now m uname = (true, m2)) :
    verifyCredentials now cmp users m uname pw = (none, m2) := by
  simp only [verifyCredentials, if_neg h1, if_neg h2, hlock]
  simp

theorem record_first (now : Nat) (uname : String) :
    recordFailedAttempt now [] uname = (⟨false, none⟩, [(jsToLower uname, ⟨1, now, none⟩)]) := by
  simp [recordFailedAttempt, mapGet, mapSet]

theorem mapGet_singleton {α : Type} (k : String) (a : α) : mapGet [(k, a)] k = some a := by
  simp [mapGet]

theorem record_singleton_step (now t c : Nat) (lu : Option Nat) (uname : String)
    (hwin : now ≤ t + attemptWindow) (hlt : c + 1 < maxAttempts) :
    recordFailedAttempt now [(jsToLower uname, ⟨c, t, lu⟩)] uname =
      (⟨false, none⟩, [(jsToLower uname, ⟨c + 1, now, lu⟩)]) := by
  unfold recordFailedAttempt
  simp only []
  rw [mapGet_singleton]
  simp only []
  rw [if_neg (show ¬ attemptWindow < now - t by
    simp only [attemptWindow] at hwin ⊢; omega)]
  rw [if_neg (show ¬ maxAttempts ≤ c + 1 by
    simp only [maxAttempts] at hlt ⊢; omega)]
  simp [mapSet]

theorem record_singleton_lock (now t c : Nat) (lu : Option Nat) (uname : String)
    (hwin : now ≤ t + attemptWindow) (hge : maxAttempts ≤ c + 1) :
    recordFailedAttempt now [(jsToLower uname, ⟨c, t, lu⟩)] uname =
      (⟨true, some 900⟩,
        [(jsToLower uname, ⟨c + 1, now, some (now + lockoutDuration)⟩)]) := by
  unfold recordFailedAttempt
  simp only []
  rw [mapGet_singleton]
  simp only []
  rw [if_neg (show ¬ attemptWindow < now - t by
    simp only [attemptWindow] at hwin ⊢; omega)]
  rw [if_pos hge]
  simp [mapSet, lockoutDuration]

theorem isLockedOut_no_deadline (now c t : Nat) (uname : String) :
    isLockedOut now [(jsToLower uname, ⟨c, t, none⟩)] uname =
      (false, [(jsToLower uname, ⟨c, t, none⟩)]) := by
  unfold isLockedOut
  rw [mapGet_singleton]

theorem isLockedOut_active (now c t lu : Nat) (uname : String)
    (h0 : lu ≠ 0) (hlt : now < lu) :
    isLockedOut now [(jsToLower uname, ⟨c, t, some lu⟩)] uname =
      (true, [(jsToLower uname, ⟨c, t, some lu⟩)]) := by
  unfold isLockedOut
  rw [mapGet_singleton]
  simp only []
  rw [if_pos ⟨h0, hlt⟩]

theorem isLockedOut_expired (now c t lu : Nat) (uname : String)
    (h0 : lu ≠ 0) (hge : lu ≤ now) :
    isLockedOut now [(jsToLower uname, ⟨c, t, some lu⟩)] uname = (false, []) := by
  unfold isLockedOut
  rw [mapGet_singleton]
  simp only []
  rw [if_neg (by omega), if_pos ⟨h0, hge⟩]
  simp [mapDel]

/-- Claim C1: for every username, after exactly five failed verification
attempts for that username within the attempt window (5 minutes), a sixth
verify call — even with the correct password — returns null and
`isLockedOut` reports true for that username; and once the lockout
duration (15 minutes from the fifth failure) has elapsed, verify with the
same correct credentials returns the matching user record. -/
theorem c1_lockout_after_five_failures (users : List User) (cmp : String → String → Bool)
    (u : User) (uname pw pwBad : String) (t1 t2 t3 t4 t5 t6 t7 : Nat)
    (hu : jsTrim uname ≠ "") (hpw : pw ≠ "") (hpwBad : pwBad ≠ "")
    (hfind : findUser users uname = some u)
    (hok : cmp pw u.passwordHash = true) (hbad : cmp pwBad u.passwordHash = false)
    (h12 : t1 ≤ t2) (h23 : t2 ≤ t3) (h34 : t3 ≤ t4) (h45 : t4 ≤ t5)
    (hwin : t5 ≤ t1 + attemptWindow)
    (h56 : t5 ≤ t6) (h6lock : t6 < t5 + lockoutDuration)
    (h7 : t5 + lockoutDuration ≤ t7) :
    (verifyCredentials t6 (okCompare cmp) users
        (verifyRun (okCompare cmp) users
          [(t1, uname, pwBad), (t2, uname, pwBad), (t3, uname, pwBad),
           (t4, uname, pwBad), (t5, uname, pwBad)] []) uname pw).1 = none ∧
    (isLockedOut t6
        (verifyRun (okCompare cmp) users
          [(t1, uname, pwBad), (t2, uname, pwBad), (t3, uname, pwBad),
           (t4, uname, pwBad), (t5, uname, pwBad)] []) uname).1 = true ∧
    (verifyCredentials t7 (okCompare cmp) users
        (verifyCredentials t6 (okCompare cmp) users
          (verifyRun (okCompare cmp) users
            [(t1, uname, pwBad), (t2, uname, pwBad), (t3, uname, pwBad),
             (t4, uname, pwBad), (t5, uname, pwBad)] []) uname pw).2 uname pw).1 = some u := by
  have hbadE : okCompare cmp pwBad u.passwordHash = Except.ok false := by
    simp [okCompare, hbad]
  have hokE : okCompare cmp pw u.passwordHash = Except.ok true := by
    simp [okCompare, hok]
  have s1 : verifyCredentials t1 (okCompare cmp) users [] uname pwBad =
      (none, [(jsToLower uname, ⟨1, t1, none⟩)]) := by
    rw [verify_wrong_password t1 (okCompare cmp) users [] [] uname pwBad u hu hpwBad rfl
      hfind hbadE, record_first]
  have s2 : verifyCredentials t2 (okCompare cmp) users
      [(jsToLower uname, ⟨1, t1, none⟩)] uname pwBad =
      (none, [(jsToLower uname, ⟨2, t2, none⟩)]) := by
    rw [verify_wrong_password t2 (okCompare cmp) users _ _ uname pwBad u hu hpwBad
      (isLockedOut_no_deadline t2 1 t1 uname) hfind hbadE,
      record_singleton_step t2 t1 1 none uname (by omega) (by decide)]
  have s3 : verifyCredentials t3 (okCompare cmp) users
      [(jsToLower uname, ⟨2, t2, none⟩)] uname pwBad =
      (none, [(jsToLower uname, ⟨3, t3, none⟩)]) := by
    rw [verify_wrong_password t3 (okCompare cmp) users _ _ uname pwBad u hu hpwBad
      (isLockedOut_no_deadline t3 2 t2 uname) hfind hbadE,
      record_singleton_step t3 t2 2 none uname (by omega) (by decide)]
  have s4 : verifyCredentials t4 (okCompare cmp) users
      [(jsToLower uname, ⟨3, t3, none⟩)] uname pwBad =
      (none, [(jsToLower uname, ⟨4, t4, none⟩)]) := by
    rw [verify_wrong_password t4 (okCompare cmp) users _ _ uname pwBad u hu hpwBad
      (isLockedOut_no_deadline t4 3 t3 uname) hfind hbadE,
      record_singleton_step t4 t3 3 none uname (by omega) (by decide)]
  have s5 : verifyCredentials t5 (okCompare cmp) users
      [(jsToLower uname, ⟨4, t4, none⟩)] uname pwBad =
      (none, [(jsToLower uname, ⟨5, t5, some (t5 + lockoutDuration)⟩)]) := by
    rw [verify_wrong_password t5 (okCompare cmp) users _ _ uname pwBad u hu hpwBad
      (isLockedOut_no_deadline t5 4 t4 uname) hfind hbadE,
      record_singleton_lock t5 t4 4 none uname (by omega) (by decide)]
  have hm5 : verifyRun (okCompare cmp) users
      [(t1, uname, pwBad), (t2, uname, pwBad), (t3, uname, pwBad),
       (t4, uname, pwBad), (t5, uname, pwBad)] [] =
      [(jsToLower uname, ⟨5, t5, some (t5 + lockoutDuration)⟩)] := by
    simp only [verifyRun, List.foldl_cons, List.foldl_nil, s1, s2, s3, s4, s5]
  have hlu0 : t5 + lockoutDuration ≠ 0 := by
    simp only [lockoutDuration]
    omega
  have s6 : verifyCredentials t6 (okCompare cmp) users
      [(jsToLower uname, ⟨5, t5, some (t5 + lockoutDuration)⟩)] uname pw =
      (none, [(jsToLower uname, ⟨5, t5, some (t5 + lockoutDuration)⟩)]) :=
    verify_while_locked t6 (okCompare cmp) users _ _ uname pw hu hpw
      (isLockedOut_active t6 5 t5 (t5 + lockoutDuration) uname hlu0 h6lock)
  have s7 : verifyCredentials t7 (okCompare cmp) users
      [(jsToLower uname, ⟨5, t5, some (t5 + lockoutDuration)⟩)] uname pw =
      (some u, []) := by
    rw [verify_correct_password t7 (okCompare cmp) users _ [] uname pw u hu hpw
      (isLockedOut_expired t7 5 t5 (t5 + lockoutDuration) uname hlu0 h7) hfind hokE]
    rfl
  refine ⟨?_, ?_, ?_⟩
  · rw [hm5, s6]
  · rw [hm5, isLockedOut_active t6 5 t5 (t5 + lockoutDuration) uname hlu0 h6lock]
  · rw [hm5, s6, s7]

theorem record_increments (now : Nat) (m : AttemptMap) (uname : String) (a : Attempts)
    (hget : mapGet m (jsToLower uname) = some a)
    (hwin : now ≤ a.lastAttempt + attemptWindow) :
    ∃ lu, (recordFailedAttempt now m uname).2 =
      mapSet m (jsToLower uname) ⟨a.count + 1, now, lu⟩ := by
  unfold recordFailedAttempt
  simp only []
  rw [hget]
  simp only []
  rw [if_neg (show ¬ attemptWindow < now - a.lastAttempt by
    simp only [attemptWindow] at hwin ⊢; omega)]
  by_cases h : maxAttempts ≤ a.count + 1
  · rw [if_pos h]
    exact ⟨_, rfl⟩
  · rw [if_neg h]
    exact ⟨_, rfl⟩

theorem recordSeq_counts (uname : String) :
    ∀ (ts : List Nat) (m : AttemptMap) (a : Attempts),
      mapGet m (jsToLower uname) = some a →
      List.Chain' (fun x y => y ≤ x + attemptWindow) (a.lastAttempt :: ts) →
      ∃ b : Attempts, mapGet (recordSeq uname ts m) (jsToLower uname) = some b ∧
        b.count = a.count + ts.length := by
  intro ts
  induction ts with
  | nil =>
    intro m a hget _
    exact ⟨a, hget, by simp [recordSeq]⟩
  | cons t rest ih =>
    intro m a hget hchain
    obtain ⟨lu, hlu⟩ := record_increments t m uname a hget (List.chain'_cons.mp hchain).1
    have hget2 : mapGet ((recordFailedAttempt t m uname).2) (jsToLower uname) =
        some ⟨a.count + 1, t, lu⟩ := by
      rw [hlu]
      exact mapGet_mapSet_self _ _ _
    have hsplit : recordSeq uname (t :: rest) m =
        recordSeq uname rest ((recordFailedAttempt t m uname).2) := by
      simp [recordSeq, List.foldl_cons]
    rw [hsplit]
    obtain ⟨b, hb, hcount⟩ := ih ((recordFailedAttempt t m uname).2) ⟨a.count + 1, t, lu⟩
      hget2 (List.chain'_cons.mp hchain).2
    refine ⟨b, hb, ?_⟩
    simp only [List.length_cons] at hcount ⊢
    omega

/-- Claim C9: recording N failed attempts against one username (each
within the attempt window of its predecessor) yields exactly N counted
failures — no lost updates — and each single `recordFailedAttempt` call
increments the stored count by exactly one.  `recordFailedAttempt` is a
synchronous (await-free) step, so the JavaScript run-to-completion model
serializes concurrent calls into such a sequence. -/
theorem c9_no_lost_updates (uname : String) (t : Nat) (ts : List Nat)
    (hchain : List.Chain' (fun x y => y ≤ x + attemptWindow) (t :: ts)) :
    (∃ b : Attempts, mapGet (recordSeq uname (t :: ts) []) (jsToLower uname) = some b ∧
      b.count = (t :: ts).length) ∧
    (∀ (now : Nat) (m : AttemptMap) (a : Attempts),
      mapGet m (jsToLower uname) = some a → now ≤ a.lastAttempt + attemptWindow →
      ∃ lu, (recordFailedAttempt now m uname).2 =
        mapSet m (jsToLower uname) ⟨a.count + 1, now, lu⟩) := by
  constructor
  · have h0 : recordSeq uname (t :: ts) [] =
        recordSeq uname ts [(jsToLower uname, ⟨1, t, none⟩)] := by
      simp [recordSeq, List.foldl_cons, record_first]
    rw [h0]
    obtain ⟨b, hb, hc⟩ := recordSeq_counts uname ts [(jsToLower uname, ⟨1, t, none⟩)]
      ⟨1, t, none⟩ (mapGet_singleton _ _) hchain
    refine ⟨b, hb, ?_⟩
    simp only [List.length_cons] at hc ⊢
    omega
  · exact fun now m a hget hwin => record_increments now m uname a hget hwin

/-- Witness for C9: seven recorded failures for `carol` produce a stored
count of exactly seven. -/
theorem c9_no_lost_updates_witness :
    ∃ b : Attempts, mapGet (recordSeq "carol" [0, 1, 2, 3, 4, 5, 6] [])
      (jsToLower "carol") = some b ∧ b.count = 7 := by
  have h := (c9_no_lost_updates "carol" 0 [1, 2, 3, 4, 5, 6] (by
    simp [List.chain'_cons, attemptWindow])).1
  simpa using h

/-- Witness for C1: five failed attempts at times 0..4 lock out `bob`; the
sixth call at time 10 is rejected, and the correct credentials succeed at
time 1000000 (past the lockout deadline 900004). -/
theorem c1_lockout_after_five_failures_witness :
    (isLockedOut 10 (verifyRun (okCompare modelBcryptCompare) [c1DemoUser]
        [(0, "bob", "wrongpass1"), (1, "bob", "wrongpass1"), (2, "bob", "wrongpass1"),
         (3, "bob", "wrongpass1"), (4, "bob", "wrongpass1")] []) "bob").1 = true ∧
    (verifyCredentials 1000000 (okCompare modelBcryptCompare) [c1DemoUser]
        (verifyCredentials 10 (okCompare modelBcryptCompare) [c1DemoUser]
          (verifyRun (okCompare modelBcryptCompare) [c1DemoUser]
            [(0, "bob", "wrongpass1"), (1, "bob", "wrongpass1"), (2, "bob", "wrongpass1"),
             (3, "bob", "wrongpass1"), (4, "bob", "wrongpass1")] []) "bob" "goodpass1").2
        "bob" "goodpass1").1 = some c1DemoUser := by
  have h := c1_lockout_after_five_failures [c1DemoUser] modelBcryptCompare c1DemoUser
    "bob" "goodpass1" "wrongpass1" 0 1 2 3 4 10 1000000
    (by decide) (by decide) (by decide) (by rfl) (by rfl) (by rfl)
    (by omega) (by omega) (by omega) (by omega)
    (by simp [attemptWindow]) (by omega) (by simp [lockoutDuration])
    (by simp [lockoutDuration])
  exact ⟨h.2.1, h.2.2⟩

theorem rate_step_first (now : Nat) (tick : Bool) (ip : String) :
    isRateLimited now tick [] ip = (false, [(ip, [now])]) := by
  unfold isRateLimited
  cases tick <;>
    simp [mapGet, mapSet, cleanupOldEntries, MAX_IPS_IN_MEMORY, MAX_REQUESTS]

theorem rate_step_append (now : Nat) (tick : Bool) (ip : String) (pres : List Nat)
    (hwin : ∀ p ∈ pres, now - p < WINDOW_MS)
    (hlen : pres.length < MAX_REQUESTS) :
    isRateLimited now tick [(ip, pres)] ip = (false, [(ip, pres ++ [now])]) := by
  unfold isRateLimited
  rw [mapGet_singleton]
  simp only [Option.getD]
  rw [List.filter_eq_self.mpr (fun a ha => by simpa using hwin a ha)]
  rw [if_neg (by omega)]
  have hset : mapSet [(ip, pres)] ip (pres ++ [now]) = [(ip, pres ++ [now])] := by
    simp [mapSet]
  rw [hset]
  cases tick <;> simp [cleanupOldEntries, MAX_IPS_IN_MEMORY]

theorem rate_step_limited (now : Nat) (tick : Bool) (ip : String) (pres : List Nat)
    (hfull : MAX_REQUESTS ≤ (pres.filter (fun t => now - t < WINDOW_MS)).length) :
    isRateLimited now tick [(ip, pres)] ip = (true, [(ip, pres)]) := by
  unfold isRateLimited
  rw [mapGet_singleton]
  simp only [Option.getD]
  rw [if_pos (by simpa using hfull)]

theorem rateRun_under_window (ip : String) :
    ∀ (calls : List (Nat × Bool)) (pres : List Nat) (t1 : Nat),
      (∀ p ∈ pres, t1 ≤ p ∧ p < t1 + WINDOW_MS) →
      (∀ c ∈ calls, t1 ≤ c.1 ∧ c.1 < t1 + WINDOW_MS) →
      pres.length + calls.length ≤ MAX_REQUESTS →
      rateRun ip calls [(ip, pres)] =
        (List.replicate calls.length false, [(ip, pres ++ calls.map Prod.fst)]) := by
  intro calls
  induction calls with
  | nil =>
    intro pres t1 _ _ _
    simp [rateRun]
  | cons c rest ih =>
    intro pres t1 hpres hcalls hlen
    obtain ⟨t, tick⟩ := c
    obtain ⟨htc1, htc2⟩ := hcalls (t, tick) (by simp)
    have hstep : isRateLimited t tick [(ip, pres)] ip = (false, [(ip, pres ++ [t])]) := by
      apply rate_step_append
      · intro p hp
        obtain ⟨hp1, hp2⟩ := hpres p hp
        simp only [WINDOW_MS] at htc2 hp2 ⊢
        omega
      · simp only [List.length_cons] at hlen
        omega
    have ihres := ih (pres ++ [t]) t1
      (by
        intro p hp
        rcases List.mem_append.mp hp with h | h
        · exact hpres p h
        · simp only [List.mem_singleton] at h
          subst h
          exact ⟨htc1, htc2⟩)
      (fun c2 hc2 => hcalls c2 (by simp [hc2]))
      (by
        simp only [List.length_append, List.length_cons] at hlen ⊢
        simp only [List.length_nil]
        omega)
    simp only [rateRun, hstep, ihres, List.map_cons]
    simp only [Prod.mk.injEq]
    exact ⟨by simp [List.replicate_succ], by simp [List.append_assoc]⟩

/-- Claim C4: for a fixed key with no prior state, all ten `isRateLimited`
calls within a window of length 60 s from the first request return false
and record their timestamps in order; an eleventh call within the same
window returns true without recording; and at any time ≥ 60 s after the
first request the key admits a request again. -/
theorem c4_rate_limiter (ip : String) (calls : List (Nat × Bool)) (t1 : Nat)
    (tick11 tick12 : Bool) (t11 t12 : Nat)
    (hlen : calls.length = 10)
    (hfirst : (calls.map Prod.fst).head? = some t1)
    (hcalls : ∀ c ∈ calls, t1 ≤ c.1 ∧ c.1 < t1 + WINDOW_MS)
    (h11a : t1 ≤ t11) (h11b : t11 < t1 + WINDOW_MS)
    (h12 : t1 + WINDOW_MS ≤ t12) :
    rateRun ip calls [] = (List.replicate 10 false, [(ip, calls.map Prod.fst)]) ∧
    isRateLimited t11 tick11 [(ip, calls.map Prod.fst)] ip =
      (true, [(ip, calls.map Prod.fst)]) ∧
    (isRateLimited t12 tick12 [(ip, calls.map Prod.fst)] ip).1 = false := by
  cases calls with
  | nil => simp at hlen
  | cons c rest =>
    obtain ⟨tc, tickc⟩ := c
    have htceq : t1 = tc := by
      have := hfirst
      simp only [List.map_cons, List.head?_cons, Option.some.injEq] at this
      omega
    subst htceq
    have hrest : ∀ c2 ∈ rest, t1 ≤ c2.1 ∧ c2.1 < t1 + WINDOW_MS :=
      fun c2 hc2 => hcalls c2 (by simp [hc2])
    have hrestlen : rest.length = 9 := by simpa using hlen
    refine ⟨?_, ?_, ?_⟩
    · have h1 := rate_step_first t1 tickc ip
      have h2 := rateRun_under_window ip rest [t1] t1
        (by
          intro p hp
          simp only [List.mem_singleton] at hp
          exact ⟨hp.ge, by simp only [hp, WINDOW_MS]; omega⟩)
        hrest
        (by simp [hrestlen, MAX_REQUESTS])
      simp only [rateRun, h1, h2, List.map_cons, hrestlen]
      exact rfl
    · apply rate_step_limited
      have hall : ((t1 :: rest.map Prod.fst).filter (fun t => t11 - t < WINDOW_MS)) =
          t1 :: rest.map Prod.fst := by
        apply List.filter_eq_self.mpr
        intro a ha
        simp only [decide_eq_true_eq]
        simp only [List.mem_cons, List.mem_map] at ha
        rcases ha with rfl | ⟨c2, hc2, rfl⟩
        · simp only [WINDOW_MS] at h11b ⊢
          omega
        · obtain ⟨hb1, hb2⟩ := hrest c2 hc2
          simp only [WINDOW_MS] at h11b hb2 ⊢
          omega
      simp only [List.map_cons, hall, List.length_cons, List.length_map, hrestlen,
        MAX_REQUESTS]
      omega
    · simp only [List.map_cons]
      unfold isRateLimited
      rw [mapGet_singleton]
      simp only [Option.getD]
      have hhead : (decide (t12 - t1 < WINDOW_MS)) = false := by
        simp only [decide_eq_false_iff_not, WINDOW_MS] at h12 ⊢
        omega
      have hflt : ((t1 :: rest.map Prod.fst).filter
          (fun t => t12 - t < WINDOW_MS)).length ≤ 9 := by
        rw [List.filter_cons, hhead]
        simp only [Bool.false_eq_true, if_false]
        calc ((rest.map Prod.fst).filter (fun t => t12 - t < WINDOW_MS)).length
            ≤ (rest.map Prod.fst).length := List.length_filter_le _ _
          _ = 9 := by simp [hrestlen]
      rw [if_neg (by simp only [MAX_REQUESTS]; omega)]

theorem getPropE_of_ne_null (e : Json) (k : String) (h : e ≠ Json.null) :
    getPropE e k = .ok (getProp e k) := by
  cases e <;> simp_all [getPropE, getProp]

theorem filterValidUsersE_no_null (es : List Json) (h : ∀ e ∈ es, e ≠ Json.null) :
    filterValidUsersE es = .ok (es.filter validUserEntry) := by
  induction es with
  | nil => rfl
  | cons e rest ih =>
    have he : e ≠ Json.null := h e (by simp)
    have hrest := ih (fun x hx => h x (by simp [hx]))
    unfold filterValidUsersE
    rw [getPropE_of_ne_null e "username" he]
    simp only []
    by_cases h1 : truthyOpt (getProp e "username") = false
    · rw [if_pos h1, hrest, List.filter_cons]
      simp [validUserEntry, h1]
    · rw [if_neg h1, getPropE_of_ne_null e "passwordHash" he]
      simp only []
      by_cases h2 : truthyOpt (getProp e "passwordHash") = false
      · rw [if_pos h2, hrest, List.filter_cons]
        simp [validUserEntry, h2]
      · rw [if_neg h2, hrest]
        simp only []
        rw [List.filter_cons]
        simp only [Bool.not_eq_false] at h1 h2
        simp [validUserEntry, h1, h2]

/-- Claim C8: `loadUsers` returns the empty sequence when the durable file
is absent, unreadable, empty, unparseable, falsy, or missing a `users`
array; entries individually missing a truthy `username` or `passwordHash`
are filtered out; and every thrown error is absorbed at the store boundary
into an empty sequence — the caller always receives a list. -/
theorem c8_load_users_absorbs_failures :
    (loadUsers .absent = []) ∧
    (loadUsers .readErr = []) ∧
    (∀ s, jsTrim s = "" → loadUsers (.content s) = []) ∧
    (∀ s, jsonParse s = none → loadUsers (.content s) = []) ∧
    (∀ s d, jsonParse s = some d → truthy d = false → loadUsers (.content s) = []) ∧
    (∀ s d, jsonParse s = some d → (∀ es, getProp d "users" ≠ some (Json.arr es)) →
      loadUsers (.content s) = []) ∧
    (∀ s d es, jsTrim s ≠ "" → jsonParse s = some d →
      getProp d "users" = some (Json.arr es) → (∀ e ∈ es, e ≠ Json.null) →
      loadUsers (.content s) = es.filter validUserEntry) ∧
    (∀ f, loadUsersE f = .error () → loadUsers f = []) := by
  refine ⟨rfl, rfl, ?_, ?_, ?_, ?_, ?_, ?_⟩
  · intro s hs
    simp [loadUsers, loadUsersE, hs]
  · intro s hs
    by_cases ht : jsTrim s = "" <;> simp [loadUsers, loadUsersE, ht, hs]
  · intro s d hparse htr
    by_cases ht : jsTrim s = "" <;> simp [loadUsers, loadUsersE, ht, hparse, htr]
  · intro s d hparse hne
    by_cases ht : jsTrim s = ""
    · simp [loadUsers, loadUsersE, ht]
    · simp only [loadUsers, loadUsersE, if_neg ht, hparse]
      by_cases htr : truthy d = false
      · simp [htr]
      · simp only [htr, Bool.false_eq_true, if_false]
        cases hg : getProp d "users" with
        | none => simp
        | some j =>
          cases j with
          | arr es => exact absurd hg (hne es)
          | null => simp
          | bool b => simp
          | num n => simp
          | str s2 => simp
          | obj fs => simp
  · intro s d es ht hparse hg hnull
    have htr : truthy d = true := by
      cases d <;> simp_all [getProp, truthy]
    simp only [loadUsers, loadUsersE, if_neg ht, hparse, htr, Bool.true_eq_false, if_false,
      hg, filterValidUsersE_no_null es hnull]
  · intro f he
    simp [loadUsers, he]

/-- Witness for C8: a blank file and an unparseable file load as empty, and
a file whose second entry lacks `passwordHash` loads as just the first
entry. -/
theorem c8_load_users_absorbs_failures_witness :
    loadUsers (.content " ") = [] ∧
    loadUsers (.content "not json") = [] ∧
    loadUsers (.content c8DemoFile) =
      [Json.obj [("username", .str "alice"), ("passwordHash", .str "h")]] := by
  refine ⟨?_, ?_, ?_⟩
  · exact c8_load_users_absorbs_failures.2.2.1 " " (by decide)
  · exact c8_load_users_absorbs_failures.2.2.2.1 "not json" (by rfl)
  · have h := c8_load_users_absorbs_failures.2.2.2.2.2.2.1 c8DemoFile
      (Json.obj [("users", Json.arr c8DemoEntries)]) c8DemoEntries
      (by decide) (by rfl) (by rfl)
      (by
        intro e he
        simp only [c8DemoEntries, List.mem_cons, List.not_mem_nil, or_false] at he
        rcases he with rfl | rfl <;> simp)
    rw [h]
    rfl

/-- Claim C5 (amended): with the store containing alice, the call
`verify("Alice ", "pw12345678")` matches the alice record (username
comparison case-insensitive and whitespace-trimmed) and returns it,
provided the password is the exact stored one.  The scenario's quoted
password " pw12345678" carries a leading space, and since the password
comparison is exact, that call returns null (see the counterexample). -/
theorem c5_username_normalized_password_exact (now : Nat) (cmp : String → String → Bool)
    (hsh : String) (hok : cmp "pw12345678" hsh = true) :
    (verifyCredentials now (okCompare cmp) [⟨"alice", hsh, none⟩] []
      "Alice " "pw12345678").1 = some ⟨"alice", hsh, none⟩ := by
  have hfind : findUser [⟨"alice", hsh, none⟩] "Alice " = some ⟨"alice", hsh, none⟩ := by
    unfold findUser findUserAux
    simp only [show ({ username := "alice", passwordHash := hsh, displayName := none } :
      User).username = "alice" from rfl]
    rw [if_pos (show jsTrim (jsToLower "alice") = jsTrim (jsToLower "Alice ") by decide)]
  rw [verify_correct_password now (okCompare cmp) [⟨"alice", hsh, none⟩] [] [] "Alice "
    "pw12345678" ⟨"alice", hsh, none⟩ (by decide) (by decide) rfl hfind
    (by simp [okCompare, hok])]

/-- Witness for C5: instantiation with the modelled bcrypt collaborator. -/
theorem c5_username_normalized_password_exact_witness :
    (verifyCredentials 0 (okCompare modelBcryptCompare)
      [⟨"alice", modelBcryptHash "pw12345678", none⟩] [] "Alice " "pw12345678").1 =
      some ⟨"alice", modelBcryptHash "pw12345678", none⟩ :=
  c5_username_normalized_password_exact 0 modelBcryptCompare
    (modelBcryptHash "pw12345678") (by rfl)

/-- Counterexample to C5 as stated: the scenario's exact call, with the
leading space preserved in the password, fails the exact bcrypt comparison
and `verify("Alice ", " pw12345678")` returns null, not a record. -/
theorem c5_leading_space_password_cex :
    modelBcryptCompare " pw12345678" (modelBcryptHash "pw12345678") = false ∧
    (verifyCredentials 0 (okCompare modelBcryptCompare)
      [⟨"alice", modelBcryptHash "pw12345678", none⟩] [] "Alice " " pw12345678").1 = none :=
  ⟨rfl, rfl⟩

/-- Claim C6: no fault originating inside the core escapes to the request
boundary.  Session creation throws exactly when token generation fails;
session destruction completes for every cookie; credential verification
returns null even when the bcrypt comparison rejects; user-store load
absorbs every thrown error into an empty list; a cookie whose payload
fails to parse decodes to null in both variants; and a rate-limited call
leaves the limiter state untouched. -/
theorem c6_no_fault_escapes :
    (∀ (tg : Except Unit String) (now : Nat) (u : User),
      exOk (createSessionE tg now u) = exOk tg) ∧
    (∀ (now : Nat) (users : List User) (cookie : Option String),
      exOk (destroySession now users cookie) = true) ∧
    (∀ (now : Nat) (cmpE : String → String → Except Unit Bool) (users : List User)
        (m : AttemptMap) (u p : String),
      (∀ a b, cmpE a b = .error ()) → (verifyCredentials now cmpE users m u p).1 = none) ∧
    (∀ f, loadUsersE f = .error () → loadUsers f = []) ∧
    (∀ (now : Nat) (c : String), jsonParse (utf8Decode (b64urlDecode c)) = none →
      decodeSessionEdge now c = none ∧ ∀ users, decodeSession now users c = none) ∧
    (∀ (now : Nat) (tick : Bool) (st : ReqMap) (ip : String),
      (isRateLimited now tick st ip).1 = true → (isRateLimited now tick st ip).2 = st) := by
  refine ⟨?_, ?_, ?_, ?_, ?_, ?_⟩
  · intro tg now u
    cases tg <;> rfl
  · intro now users cookie
    cases cookie <;> rfl
  · intro now cmpE users m u p hthrow
    by_cases h1 : jsTrim u = ""
    · simp [verifyCredentials, h1]
    · by_cases h2 : p = ""
      · simp [verifyCredentials, h1, h2]
      · rcases hl : isLockedOut now m u with ⟨locked, m2⟩
        simp only [verifyCredentials, if_neg h1, if_neg h2, hl]
        cases locked
        · simp only [Bool.false_eq_true, if_false]
          cases hf : findUser users u with
          | none => simp [hf]
          | some user => simp [hf, hthrow p user.passwordHash]
        · simp
  · intro f he
    simp [loadUsers, he]
  · intro now c hp
    constructor
    · simp [decodeSessionEdge, hp]
    · intro users
      simp [decodeSession, hp]
  · intro now tick st ip
    unfold isRateLimited
    by_cases h : MAX_REQUESTS ≤
        (((mapGet st ip).getD []).filter (fun t => now - t < WINDOW_MS)).length
    · rw [if_pos h]
      intro _
      rfl
    · rw [if_neg h]
      intro hcon
      simp at hcon

/-- Witness for C6: the permitted throw propagates from a failing token
generator, and each absorbing operation yields its defined fallback on a
concrete failing input. -/
theorem c6_no_fault_escapes_witness :
    exOk (createSessionE (Except.error ()) 0 demoUser) = exOk (Except.error () : Except Unit String) ∧
    exOk (destroySession 0 [demoUser] (some demoCookie)) = true ∧
    (verifyCredentials 0 (fun _ _ => Except.error ()) [demoUser] [] "alice" "pw12345678").1 =
      none ∧
    loadUsers .readErr = [] ∧
    decodeSessionEdge 0 "%%%" = none := by
  refine ⟨?_, ?_, ?_, ?_, ?_⟩
  · exact c6_no_fault_escapes.1 (Except.error ()) 0 demoUser
  · exact c6_no_fault_escapes.2.1 0 [demoUser] (some demoCookie)
  · exact c6_no_fault_escapes.2.2.1 0 (fun _ _ => Except.error ()) [demoUser] []
      "alice" "pw12345678" (fun _ _ => rfl)
  · exact c6_no_fault_escapes.2.2.2.1 .readErr rfl
  · exact (c6_no_fault_escapes.2.2.2.2.1 0 "%%%" (by rfl)).1

/-- Claim C10 (amended): for every login request whose username and
password fields are present strings, with the username non-blank (nonempty
after trimming) and the password nonempty, if the sanitized username
length is below 3 or above 100, or the password length is below 8 or above
128, the route responds 401 with the generic "Invalid credentials" message
and the lockout map is returned unchanged — credential verification is
never reached.  (A whitespace-only username is instead answered 400
"Username is required"; see the counterexample.) -/
theorem c10_length_check_frame (now : Nat) (cmp : String → String → Except Unit Bool)
    (users : List User) (tg : Except Unit String) (m : AttemptMap) (u p : String)
    (hu0 : u ≠ "") (hu : jsTrim u ≠ "") (hp : p ≠ "")
    (hlen : (sanitizeInput u).length < 3 ∨ 100 < (sanitizeInput u).length ∨
            p.length < 8 ∨ 128 < p.length) :
    loginRoute now cmp users tg m (.ok (loginBody (.str u) (.str p))) =
      (⟨401, some "Invalid credentials", false⟩, m) := by
  have hlu : lookupLast [("username", Json.str u), ("password", Json.str p)] "username" =
      some (Json.str u) := by
    simp [lookupLast]
  have hlp : lookupLast [("username", Json.str u), ("password", Json.str p)] "password" =
      some (Json.str p) := by
    simp [lookupLast]
  unfold loginRoute loginBody
  simp only [getPropE]
  rw [hlu, hlp]
  simp only []
  rw [if_neg (by push_neg; exact ⟨hu0, hu⟩)]
  rw [if_neg hp]
  rw [if_neg (by simp [isValidUtf8])]
  by_cases husan : (sanitizeInput u).length < 3 ∨ 100 < (sanitizeInput u).length
  · rw [if_pos husan]
  · have hplen : p.length < 8 ∨ 128 < p.length := by tauto
    rw [if_neg husan, if_pos hplen]

/-- Witness for C10: a two-character username is rejected 401 with the
lockout map untouched. -/
theorem c10_length_check_frame_witness :
    loginRoute 0 (okCompare modelBcryptCompare) [] (Except.ok "t") []
      (.ok (loginBody (.str "ab") (.str "password1"))) =
      (⟨401, some "Invalid credentials", false⟩, []) :=
  c10_length_check_frame 0 (okCompare modelBcryptCompare) [] (Except.ok "t") []
    "ab" "password1" (by decide) (by decide) (by decide) (Or.inl (by decide))

/-- Counterexample to C10 as stated: the username " " is a present,
non-empty, valid-UTF-8 string whose sanitized length is 0 < 3, yet the
route answers 400 "Username is required", not the claimed 401 generic
message (the state-preservation half still holds). -/
theorem c10_blank_username_cex :
    (sanitizeInput " ").length < 3 ∧
    loginRoute 0 (okCompare modelBcryptCompare) [] (Except.ok "t") []
      (.ok (loginBody (.str " ") (.str "password1"))) =
      (⟨400, some "Username is required", false⟩, []) :=
  ⟨by decide, by rfl⟩

/-- Witness for C4: ten requests at times 0..9 are admitted, the eleventh
at 59999 is limited without recording, and time 60000 admits again. -/
theorem c4_rate_limiter_witness :
    rateRun "1.2.3.4"
      [(0, false), (1, false), (2, false), (3, false), (4, false), (5, false),
       (6, false), (7, false), (8, false), (9, true)] [] =
      (List.replicate 10 false, [("1.2.3.4", [0, 1, 2, 3, 4, 5, 6, 7, 8, 9])]) ∧
    isRateLimited 59999 false [("1.2.3.4", [0, 1, 2, 3, 4, 5, 6, 7, 8, 9])] "1.2.3.4" =
      (true, [("1.2.3.4", [0, 1, 2, 3, 4, 5, 6, 7, 8, 9])]) ∧
    (isRateLimited 60000 true [("1.2.3.4", [0, 1, 2, 3, 4, 5, 6, 7, 8, 9])] "1.2.3.4").1 =
      false := by
  have h := c4_rate_limiter "1.2.3.4"
    [(0, false), (1, false), (2, false), (3, false), (4, false), (5, false),
     (6, false), (7, false), (8, false), (9, true)] 0 false true 59999 60000
    (by decide) (by rfl)
    (by
      intro c hc
      simp only [WINDOW_MS]
      fin_cases hc <;> simp)
    (by decide) (by simp [WINDOW_MS]) (by simp [WINDOW_MS])
  refine ⟨?_, ?_, ?_⟩
  · have := h.1
    simpa using this
  · have := h.2.1
    simpa using this
  · have := h.2.2
    simpa using this
